import Mathlib

/-!
Verification of the todo-beads synchronization module
(`sync-beads.sh`, TypeScript part: `syncTodosToBeads`, `readTodosFromBeads`
and their helpers).

The engine keeps an OpenCode session's todo list in agreement with issues
in the external `bd` (beads) issue tracker.  The tracker CLI is a black
box invoked through a small set of calls (`bd show/create/update/close`);
we model it as an environment `Env` of abstract call results, and record
every call the engine issues in an explicit trace (`BdCall`), together
with the list of mapping snapshots written by `saveMapping`.

JavaScript `Record` objects are modelled as insertion-ordered association
lists (`alookup` / `aset`), and JavaScript truthiness tests on string
values (`if (mapping.sessions[sessionID])`) via `jsTruthy`, which treats
the empty string like a missing key.
-/

namespace Beads

/-- Association-list lookup: first entry whose key matches, mirroring a
JavaScript object property read (objects have unique keys, so the first
match is the only one). -/
def alookup {α : Type} : List (String × α) → String → Option α
  | [], _ => none
  | (k', v) :: rest, k => if k' = k then some v else alookup rest k

/-- Association-list update: replace the value at an existing key in
place, or append a new entry, mirroring JavaScript property assignment
(insertion order preserved). -/
def aset {α : Type} : List (String × α) → String → α → List (String × α)
  | [], k, v => [(k, v)]
  | (k', v') :: rest, k, v =>
    if k' = k then (k, v) :: rest else (k', v') :: aset rest k v

/-- JavaScript truthiness of an optional string value: `undefined` and the
empty string are both falsy. -/
def jsTruthy : Option String → Option String
  | some s => if s = "" then none else some s
  | none => none

/-- Todo status, the closed union of the `TodoItem["status"]` type. -/
inductive TodoStatus
  | pending
  | in_progress
  | completed
  | cancelled
  deriving DecidableEq, Repr

/-- Beads issue status, the closed union of the `BeadsIssue["status"]`
type. -/
inductive BeadsStatus
  | «open»
  | in_progress
  | closed
  deriving DecidableEq, Repr

/-- OpenCode todo item.  The `priority` field is a string at the JavaScript
runtime; the code defends against values outside high/medium/low with
`PRIORITY_TO_BEADS[todo.priority] ?? 2`, so we model it as `String`. -/
structure TodoItem where
  id : String
  content : String
  status : TodoStatus
  priority : String
  deriving DecidableEq, Repr

/-- Beads issue as parsed from `bd --json` output. -/
structure BeadsIssue where
  id : String
  title : String
  description : Option String
  status : BeadsStatus
  priority : Int
  issue_type : String
  notes : Option String
  deriving DecidableEq, Repr

/-- Persistent mapping between OpenCode todos and beads issues
(`TodoBeadsMapping` in the source): `sessions` maps a session id to its
epic issue id, `todos` maps a session id to a todo-id → beads-id map, and
`lastSync` is the timestamp written by `saveMapping`. -/
structure TodoBeadsMapping where
  sessions : List (String × String)
  todos : List (String × List (String × String))
  lastSync : Nat
  deriving DecidableEq, Repr

/-- Empty mapping returned by `loadMapping` when the file is missing or
unparseable. -/
def emptyMapping : TodoBeadsMapping :=
  { sessions := [], todos := [], lastSync := 0 }

/-- One call issued to the `bd` CLI, recorded in the engine's trace. -/
inductive BdCall
  | show (id : String)
  | createEpic (title : String) (description : String)
  | createTask (title : String) (priority : Int) (parent : String) (description : String)
  | update (id : String) (status : BeadsStatus)
  | updateNotes (id : String) (notes : String)
  | close (id : String) (reason : String)
  deriving DecidableEq, Repr

/-- Abstract environment: the results of the external effects the module
performs.  `show» returns `none` when the `bd show` call throws or its
JSON output lacks a truthy `id` (both call sites treat these two cases
identically: fall through to creation, or skip the entry).  The create
calls return the new issue id or the thrown error; update/close return
`Except` results whose error case models a thrown error.  `readFile` and
`parseJson` model `fs.readFile(MAPPING_FILE)` and `JSON.parse`; `now` is
`Date.now()` and `today` the date part of `new Date().toISOString()`. -/
structure Env where
  readFile : Except Unit String
  parseJson : String → Except Unit TodoBeadsMapping
  «show» : String → Option BeadsIssue
  createEpic : String → String → Except String String
  createTask : String → Int → String → String → Except String String
  update : String → BeadsStatus → Except String Unit
  updateNotes : String → String → Except String Unit
  close : String → String → Except String Unit
  now : Nat
  today : String

/-- Priority translation table `PRIORITY_TO_BEADS` (a JavaScript record,
so lookup of an unknown key yields `undefined`, modelled as `none`). -/
def PRIORITY_TO_BEADS (p : String) : Option Int :=
  if p = "high" then some 1
  else if p = "medium" then some 2
  else if p = "low" then some 3
  else none

/-- Priority read in `createBeadsIssue`:
`PRIORITY_TO_BEADS[todo.priority] ?? 2`. -/
def priorityToBeads (p : String) : Int :=
  (PRIORITY_TO_BEADS p).getD 2

/-- Priority translation table `PRIORITY_FROM_BEADS` (keyed by number;
unknown keys yield `undefined`, modelled as `none`). -/
def PRIORITY_FROM_BEADS (n : Int) : Option String :=
  if n = 0 then some "high"
  else if n = 1 then some "high"
  else if n = 2 then some "medium"
  else if n = 3 then some "low"
  else if n = 4 then some "low"
  else none

/-- Priority read in `beadsIssueToTodo`:
`PRIORITY_FROM_BEADS[issue.priority] ?? "medium"`. -/
def priorityFromBeads (n : Int) : String :=
  (PRIORITY_FROM_BEADS n).getD "medium"

/-- Status translation table `STATUS_TO_BEADS` (total over the closed
todo-status union). -/
def STATUS_TO_BEADS : TodoStatus → BeadsStatus
  | .pending => .«open»
  | .in_progress => .in_progress
  | .completed => .closed
  | .cancelled => .closed

/-- Closing reason used by both `createBeadsIssue` and `updateBeadsIssue`:
`todo.status === "cancelled" ? "Cancelled in OpenCode" : "Completed"`. -/
def closeReason (s : TodoStatus) : String :=
  if s = TodoStatus.cancelled then "Cancelled in OpenCode" else "Completed"

/-- Substring test modelling JavaScript `String.prototype.includes`:
`pat` occurs contiguously in `s`. -/
def includesSub (s pat : String) : Bool :=
  s.data.tails.any fun t => pat.data.isPrefixOf t

/-- Convert a beads issue back to a todo item (`beadsIssueToTodo`): open
maps to pending, in_progress to in_progress; a closed issue is cancelled
when its notes contain "Cancelled" (missing notes count as not
containing), otherwise completed.  The todo keeps the ORIGINAL todo id
and takes the issue's title as content. -/
def beadsIssueToTodo (todoID : String) (issue : BeadsIssue) : TodoItem :=
  let status : TodoStatus :=
    match issue.status with
    | .«open» => .pending
    | .in_progress => .in_progress
    | .closed =>
      match issue.notes with
      | some n => if includesSub n "Cancelled" then .cancelled else .completed
      | none => .completed
  { id := todoID
    content := issue.title
    status := status
    priority := priorityFromBeads issue.priority }

/-- Load the mapping from disk (`loadMapping`): any read or parse failure
yields the empty mapping, never an error. -/
def loadMapping (env : Env) : TodoBeadsMapping :=
  match env.readFile with
  | .error _ => emptyMapping
  | .ok content =>
    match env.parseJson content with
    | .error _ => emptyMapping
    | .ok m => m

/-- Save the mapping (`saveMapping`): sets `lastSync` to the current time
before writing.  The returned value is the snapshot written to disk, which
is also the state of the in-memory mapping object afterwards. -/
def saveMapping (env : Env) (mapping : TodoBeadsMapping) : TodoBeadsMapping :=
  { mapping with lastSync := env.now }

/-- Result of `getOrCreateSessionIssue`: the `bd` call trace, the mapping
snapshots persisted by `saveMapping`, and either the epic id with the
updated mapping, or the error thrown. -/
structure GocResult where
  trace : List BdCall
  saves : List TodoBeadsMapping
  result : Except String (String × TodoBeadsMapping)
  deriving Repr

/-- Epic title built by `getOrCreateSessionIssue`:
`OpenCode Session ${sessionID.slice(0, 8)} (${timestamp})`. -/
def epicTitle (env : Env) (sessionID : String) : String :=
  "OpenCode Session " ++ sessionID.take 8 ++ " (" ++ env.today ++ ")"

/-- Epic description built by `getOrCreateSessionIssue`. -/
def epicDesc (sessionID : String) : String :=
  "Tracks todos for OpenCode session " ++ sessionID

/-- Creation path of `getOrCreateSessionIssue`: create an epic-type issue
(priority 2), record its id, reset the session's todo map to empty, and
save the mapping immediately; a creation error is wrapped and thrown. -/
def createSessionIssue (env : Env) (sessionID : String)
    (mapping : TodoBeadsMapping) (pre : List BdCall) : GocResult :=
  let title := epicTitle env sessionID
  let desc := epicDesc sessionID
  match env.createEpic title desc with
  | .error e =>
    ⟨pre ++ [BdCall.createEpic title desc], [],
      .error ("Failed to create session issue: " ++ e)⟩
  | .ok issueID =>
    let m1 := { mapping with
      sessions := aset mapping.sessions sessionID issueID
      todos := aset mapping.todos sessionID [] }
    let m2 := saveMapping env m1
    ⟨pre ++ [BdCall.createEpic title desc], [m2], .ok (issueID, m2)⟩

/-- Get or create the session epic (`getOrCreateSessionIssue`).  When a
recorded epic id is truthy and `bd show` yields an issue with a truthy
id, the recorded id is returned with the mapping untouched; otherwise the
creation path runs. -/
def getOrCreateSessionIssue (env : Env) (sessionID : String)
    (mapping : TodoBeadsMapping) : GocResult :=
  match jsTruthy (alookup mapping.sessions sessionID) with
  | some epicID =>
    match env.«show» epicID with
    | some _ => ⟨[BdCall.show epicID], [], .ok (epicID, mapping)⟩
    | none => createSessionIssue env sessionID mapping [BdCall.show epicID]
  | none => createSessionIssue env sessionID mapping []

/-- Create a beads issue for one todo (`createBeadsIssue`).  The follow-up
status call for an already-in_progress or terminal todo happens inside the
same `try`, so its failure also surfaces as a creation error (and the new
id is then never returned to the caller). -/
def createBeadsIssue (env : Env) (sessionIssueID : String) (todo : TodoItem) :
    List BdCall × Except String String :=
  let priority := priorityToBeads todo.priority
  let notes := "OpenCode todo ID: " ++ todo.id
  let fail (e : String) : String :=
    "Failed to create beads issue for todo " ++ todo.id ++ ": " ++ e
  match env.createTask todo.content priority sessionIssueID notes with
  | .error e =>
    ([BdCall.createTask todo.content priority sessionIssueID notes], .error (fail e))
  | .ok newID =>
    let created := [BdCall.createTask todo.content priority sessionIssueID notes]
    match todo.status with
    | .in_progress =>
      match env.update newID BeadsStatus.in_progress with
      | .error e => (created ++ [BdCall.update newID BeadsStatus.in_progress], .error (fail e))
      | .ok _ => (created ++ [BdCall.update newID BeadsStatus.in_progress], .ok newID)
    | .completed =>
      match env.close newID (closeReason TodoStatus.completed) with
      | .error e => (created ++ [BdCall.close newID (closeReason TodoStatus.completed)], .error (fail e))
      | .ok _ => (created ++ [BdCall.close newID (closeReason TodoStatus.completed)], .ok newID)
    | .cancelled =>
      match env.close newID (closeReason TodoStatus.cancelled) with
      | .error e => (created ++ [BdCall.close newID (closeReason TodoStatus.cancelled)], .error (fail e))
      | .ok _ => (created ++ [BdCall.close newID (closeReason TodoStatus.cancelled)], .ok newID)
    | .pending => (created, .ok newID)

/-- Update an existing beads issue to match a todo (`updateBeadsIssue`).
All failures are swallowed, so only the trace of calls remains: a close
with the distinguishing reason when the translated status is closed,
otherwise a status update. -/
def updateBeadsIssue (beadsID : String) (todo : TodoItem) : List BdCall :=
  let beadsStatus := STATUS_TO_BEADS todo.status
  if beadsStatus = BeadsStatus.closed then
    [BdCall.close beadsID (closeReason todo.status)]
  else
    [BdCall.update beadsID beadsStatus]

/-- Summary string built by `closeSessionIssue`:
`Session complete: ${completed} completed, ${cancelled} cancelled`. -/
def sessionSummary (todos : List TodoItem) : String :=
  let completed := (todos.filter fun t => t.status == TodoStatus.completed).length
  let cancelled := (todos.filter fun t => t.status == TodoStatus.cancelled).length
  "Session complete: " ++ toString completed ++ " completed, " ++
    toString cancelled ++ " cancelled"

/-- Close the session epic with a summary (`closeSessionIssue`).  The
notes update and the close share one `try`: when the notes update throws,
the close is never attempted; all failures are swallowed. -/
def closeSessionIssue (env : Env) (sessionIssueID : String)
    (todos : List TodoItem) : List BdCall :=
  let summary := sessionSummary todos
  match env.updateNotes sessionIssueID summary with
  | .error _ => [BdCall.updateNotes sessionIssueID summary]
  | .ok _ =>
    [BdCall.updateNotes sessionIssueID summary, BdCall.close sessionIssueID summary]

/-- Create/update phase of `syncTodosToBeads`: walk the input list in
order; a todo whose id is mapped to a truthy beads id gets an update
(failures swallowed), otherwise a new issue is created and recorded; a
creation error aborts the loop. -/
def syncLoop (env : Env) (sessionIssueID : String) :
    List TodoItem → List (String × String) →
    List BdCall × Except String (List (String × String))
  | [], todoMap => ([], .ok todoMap)
  | todo :: rest, todoMap =>
    match jsTruthy (alookup todoMap todo.id) with
    | some beadsID =>
      let p := syncLoop env sessionIssueID rest todoMap
      (updateBeadsIssue beadsID todo ++ p.1, p.2)
    | none =>
      let c := createBeadsIssue env sessionIssueID todo
      match c.2 with
      | .error e => (c.1, .error e)
      | .ok newID =>
        let p := syncLoop env sessionIssueID rest (aset todoMap todo.id newID)
        (c.1 ++ p.1, p.2)

/-- Deletion phase of `syncTodosToBeads`: every recorded pair whose todo
id is not among the seen ids gets a close call with reason "Todo removed
from OpenCode" (failure swallowed) and is removed from the map. -/
def deletePhase (seen : List String) :
    List (String × String) → List BdCall × List (String × String)
  | [] => ([], [])
  | (todoID, beadsID) :: rest =>
    let p := deletePhase seen rest
    if seen.contains todoID then (p.1, (todoID, beadsID) :: p.2)
    else (BdCall.close beadsID "Todo removed from OpenCode" :: p.1, p.2)

/-- Result of one reconciliation pass: the `bd` call trace, the list of
mapping snapshots persisted by `saveMapping` in order, and the returned
value or thrown error. -/
structure SyncResult where
  trace : List BdCall
  saves : List TodoBeadsMapping
  result : Except String Unit
  deriving Repr

/-- The `if (!mapping.todos[sessionID]) mapping.todos[sessionID] = {}`
step of `syncTodosToBeads`. -/
def ensureTodoMap (m : TodoBeadsMapping) (sessionID : String) : TodoBeadsMapping :=
  match alookup m.todos sessionID with
  | none => { m with todos := aset m.todos sessionID [] }
  | some _ => m

/-- Per-session todo map seen by the loop body of `syncTodosToBeads`
after the ensure step. -/
def startTodoMap (m : TodoBeadsMapping) (sessionID : String) :
    List (String × String) :=
  (alookup (ensureTodoMap m sessionID).todos sessionID).getD []

/-- The all-terminal test of `syncTodosToBeads`:
`todos.every(t => t.status === "completed" || t.status === "cancelled")`. -/
def allCompleteCheck (todos : List TodoItem) : Bool :=
  todos.all fun t =>
    t.status == TodoStatus.completed || t.status == TodoStatus.cancelled

/-- Core of `syncTodosToBeads`, starting from an already-loaded mapping:
resolve the session epic, ensure a todo map exists for the session, run
the create/update loop (a creation error propagates immediately, skipping
everything after it including the final save), close issues of deleted
todos, auto-close the epic when the non-empty list is all terminal, and
finally persist the mapping. -/
def syncCore (env : Env) (sessionID : String) (todos : List TodoItem)
    (mapping : TodoBeadsMapping) : SyncResult :=
  let g := getOrCreateSessionIssue env sessionID mapping
  match g.result with
  | .error e => ⟨g.trace, g.saves, .error e⟩
  | .ok (sessionIssueID, m1) =>
    let m2 := ensureTodoMap m1 sessionID
    let L := syncLoop env sessionIssueID todos (startTodoMap m1 sessionID)
    match L.2 with
    | .error e => ⟨g.trace ++ L.1, g.saves, .error e⟩
    | .ok tm1 =>
      let seen := todos.map TodoItem.id
      let D := deletePhase seen tm1
      let m3 := { m2 with todos := aset m2.todos sessionID D.2 }
      let tr3 :=
        if allCompleteCheck todos && !todos.isEmpty then
          closeSessionIssue env sessionIssueID todos
        else []
      let m4 := saveMapping env m3
      ⟨g.trace ++ L.1 ++ D.1 ++ tr3, g.saves ++ [m4], .ok ()⟩

/-- Entry point `syncTodosToBeads`: load the mapping, then reconcile. -/
def syncTodosToBeads (env : Env) (sessionID : String)
    (todos : List TodoItem) : SyncResult :=
  syncCore env sessionID todos (loadMapping env)

/-- Fetch loop of `readTodosFromBeads`: for each recorded pair, `bd show`
the beads issue; a throw or an id-less result silently skips the entry,
otherwise the issue is converted back to a todo carrying the original
todo id. -/
def readLoop (env : Env) : List (String × String) → List TodoItem
  | [] => []
  | (todoID, beadsID) :: rest =>
    match env.«show» beadsID with
    | some issue => beadsIssueToTodo todoID issue :: readLoop env rest
    | none => readLoop env rest

/-- Core of `readTodosFromBeads`, starting from an already-loaded mapping:
with no truthy session epic recorded, the empty list; otherwise the fetch
loop over the session's recorded todo map (missing map treated as
empty). -/
def readTodosCore (env : Env) (sessionID : String)
    (mapping : TodoBeadsMapping) : List TodoItem :=
  match jsTruthy (alookup mapping.sessions sessionID) with
  | none => []
  | some _ => readLoop env ((alookup mapping.todos sessionID).getD [])

/-- Entry point `readTodosFromBeads`: load the mapping, then recover. -/
def readTodosFromBeads (env : Env) (sessionID : String) : List TodoItem :=
  readTodosCore env sessionID (loadMapping env)

/-- Predicate on trace entries: is this call one that creates a tracker
issue? -/
def isCreate : BdCall → Bool
  | .createEpic _ _ => true
  | .createTask _ _ _ _ => true
  | _ => false

/-- Mapping on disk after a pass: the last snapshot saved, or the previous
content when nothing was saved. -/
def persistedAfter (r : SyncResult) (m0 : TodoBeadsMapping) : TodoBeadsMapping :=
  r.saves.getLastD m0

/-! ### Concrete fixtures used to evaluate the model on closed inputs -/

/-- Concrete tracker issue: a task in progress. -/
def issueOne : BeadsIssue :=
  ⟨"bd-1", "task one", none, BeadsStatus.in_progress, 1, "task",
    some "OpenCode todo ID: t1"⟩

/-- Concrete tracker issue: the session epic. -/
def epicIssue : BeadsIssue :=
  ⟨"epic-1", "OpenCode Session ses-1 (2026-10-11)", none, BeadsStatus.«open», 2,
    "epic", none⟩

/-- Concrete environment: no mapping file on disk, every tracker call
succeeds, `bd show` knows the epic and one task. -/
def envA : Env where
  readFile := .error ()
  parseJson := fun _ => .error ()
  «show» := fun bid =>
    if bid = "epic-1" then some epicIssue
    else if bid = "bd-1" then some issueOne
    else none
  createEpic := fun _ _ => .ok "epic-1"
  createTask := fun _ _ _ _ => .ok "bd-1"
  update := fun _ _ => .ok ()
  updateNotes := fun _ _ => .ok ()
  close := fun _ _ => .ok ()
  now := 1000
  today := "2026-10-11"

/-- Concrete environment where creating an issue titled "T2" throws. -/
def envFailT2 : Env :=
  { envA with
    createTask := fun title _ _ _ =>
      if title = "T2" then .error "boom" else .ok "bd-1" }

/-- Concrete environment where each created task's id derives from its
title. -/
def envPerTitle : Env :=
  { envA with createTask := fun title _ _ _ => .ok ("bd-" ++ title) }

/-- Concrete environment where every `bd show` fails. -/
def envNoShow : Env :=
  { envA with «show» := fun _ => none }

/-- Concrete stored mapping: one session with an epic and two recorded
todos, one of whose issues is gone. -/
def mapOne : TodoBeadsMapping :=
  ⟨[("ses-1", "epic-1")], [("ses-1", [("t1", "bd-1"), ("t2", "bd-gone")])], 5⟩

/-- Concrete pending todos. -/
def tPend1 : TodoItem := ⟨"t1", "T1", TodoStatus.pending, "medium"⟩

/-- Second concrete pending todo, whose creation `envFailT2` rejects. -/
def tPend2 : TodoItem := ⟨"t2", "T2", TodoStatus.pending, "medium"⟩

/-- Concrete completed todo. -/
def tDoneA : TodoItem := ⟨"a1", "A", TodoStatus.completed, "medium"⟩

/-- Concrete cancelled todo. -/
def tCancB : TodoItem := ⟨"b1", "B", TodoStatus.cancelled, "low"⟩

/-! ### Association-list and truthiness lemmas -/

theorem jsTruthy_eq_some {o : Option String} {s : String}
    (h : jsTruthy o = some s) : o = some s ∧ s ≠ "" := by
  cases o with
  | none => simp [jsTruthy] at h
  | some v =>
    by_cases hv : v = "" <;> simp [jsTruthy, hv] at h
    exact ⟨by rw [h], by rw [← h]; exact hv⟩

theorem jsTruthy_of_ne {s : String} (h : s ≠ "") :
    jsTruthy (some s) = some s := by
  simp [jsTruthy, h]

@[simp] theorem alookup_aset_self {α : Type} (m : List (String × α))
    (k : String) (v : α) : alookup (aset m k v) k = some v := by
  induction m with
  | nil => simp [aset, alookup]
  | cons e rest ih =>
    obtain ⟨k', v'⟩ := e
    by_cases h : k' = k <;> simp [aset, alookup, h, ih]

@[simp] theorem alookup_aset_ne {α : Type} (m : List (String × α))
    {k k' : String} (h : k ≠ k') (v : α) :
    alookup (aset m k v) k' = alookup m k' := by
  induction m with
  | nil => simp [aset, alookup, h]
  | cons e rest ih =>
    obtain ⟨k'', v''⟩ := e
    by_cases h2 : k'' = k
    · subst h2; simp [aset, alookup, h]
    · simp [aset, alookup, h2, ih]

theorem aset_of_lookup_eq {α : Type} {m : List (String × α)} {k : String}
    {v : α} (h : alookup m k = some v) : aset m k v = m := by
  induction m with
  | nil => simp [alookup] at h
  | cons e rest ih =>
    obtain ⟨k', v'⟩ := e
    by_cases h2 : k' = k
    · subst h2
      simp [alookup] at h
      simp [aset, h]
    · simp [alookup, h2] at h
      simp [aset, h2, ih h]

theorem alookup_mem {α : Type} {m : List (String × α)} {k : String} {v : α}
    (h : alookup m k = some v) : (k, v) ∈ m := by
  induction m with
  | nil => simp [alookup] at h
  | cons e rest ih =>
    obtain ⟨k', v'⟩ := e
    by_cases h2 : k' = k
    · subst h2
      simp [alookup] at h
      simp [h]
    · simp [alookup, h2] at h
      exact List.mem_cons_of_mem _ (ih h)

/-! ### Deletion-phase lemmas -/

theorem deletePhase_lookup (seen : List String)
    (tm : List (String × String)) (k : String) :
    alookup (deletePhase seen tm).2 k =
      if k ∈ seen then alookup tm k else none := by
  induction tm with
  | nil => simp [deletePhase, alookup]
  | cons e rest ih =>
    obtain ⟨tid, bid⟩ := e
    by_cases hs : tid ∈ seen
    · by_cases hk : tid = k
      · subst hk
        simp [deletePhase, hs, alookup, ih]
      · simp [deletePhase, hs, alookup, hk, ih]
    · by_cases hk : tid = k
      · subst hk
        simp [deletePhase, hs, alookup, ih]
      · simp [deletePhase, hs, alookup, hk, ih]

theorem deletePhase_close_mem {seen : List String}
    {tm : List (String × String)} {tid bid : String}
    (hmem : (tid, bid) ∈ tm) (hn : tid ∉ seen) :
    BdCall.close bid "Todo removed from OpenCode" ∈ (deletePhase seen tm).1 := by
  induction tm with
  | nil => simp at hmem
  | cons e rest ih =>
    obtain ⟨tid', bid'⟩ := e
    rcases List.mem_cons.mp hmem with h | h
    · obtain ⟨h1, h2⟩ := Prod.mk.injEq .. ▸ h
      subst h1; subst h2
      simp [deletePhase, hn]
    · by_cases hs : tid' ∈ seen <;> simp [deletePhase, hs, ih h]

theorem deletePhase_keys {seen : List String}
    {tm : List (String × String)} :
    ∀ e ∈ (deletePhase seen tm).2, e.1 ∈ seen := by
  induction tm with
  | nil => simp [deletePhase]
  | cons e rest ih =>
    obtain ⟨tid, bid⟩ := e
    by_cases hs : tid ∈ seen
    · intro e' he'
      simp [deletePhase, hs] at he'
      rcases he' with h | h
      · rw [h]
        exact hs
      · exact ih e' h
    · intro e' he'
      simp [deletePhase, hs] at he'
      exact ih e' he'

theorem deletePhase_all_kept {seen : List String}
    {tm : List (String × String)}
    (h : ∀ e ∈ tm, e.1 ∈ seen) :
    deletePhase seen tm = ([], tm) := by
  induction tm with
  | nil => simp [deletePhase]
  | cons e rest ih =>
    obtain ⟨tid, bid⟩ := e
    have hs : tid ∈ seen := h (tid, bid) (by simp)
    have hrest := ih fun e' he' => h e' (List.mem_cons_of_mem _ he')
    simp [deletePhase, hs, hrest]

/-! ### Update/create call lemmas -/

theorem updateBeadsIssue_noCreate (beadsID : String) (todo : TodoItem) :
    ∀ c ∈ updateBeadsIssue beadsID todo, isCreate c = false := by
  intro c hc
  cases h : todo.status <;>
    simp [updateBeadsIssue, STATUS_TO_BEADS, h] at hc <;>
    rw [hc] <;> rfl

theorem createBeadsIssue_ok {env : Env} {sid : String} {todo : TodoItem}
    {nid : String} (h : (createBeadsIssue env sid todo).2 = .ok nid) :
    env.createTask todo.content (priorityToBeads todo.priority) sid
      ("OpenCode todo ID: " ++ todo.id) = .ok nid := by
  simp only [createBeadsIssue] at h
  cases hc : env.createTask todo.content (priorityToBeads todo.priority) sid
      ("OpenCode todo ID: " ++ todo.id) with
  | error e => rw [hc] at h; simp at h
  | ok v =>
    rw [hc] at h
    cases hs : todo.status <;> rw [hs] at h <;> simp at h
    · rw [h]
    · cases hu : env.update v BeadsStatus.in_progress <;> rw [hu] at h <;> simp at h
      rw [h]
    · cases hu : env.close v (closeReason TodoStatus.completed) <;>
        rw [hu] at h <;> simp at h
      rw [h]
    · cases hu : env.close v (closeReason TodoStatus.cancelled) <;>
        rw [hu] at h <;> simp at h
      rw [h]

/-! ### Create/update loop lemmas -/

theorem mem_aset {α : Type} {m : List (String × α)} {k : String} {v : α} :
    ∀ e ∈ aset m k v, e ∈ m ∨ e.1 = k := by
  induction m with
  | nil => simp [aset]
  | cons e' rest ih =>
    obtain ⟨k', v'⟩ := e'
    by_cases h : k' = k
    · intro e he
      simp [aset, h] at he
      rcases he with he | he
      · right; rw [he]
      · left; simp [he]
    · intro e he
      simp [aset, h] at he
      rcases he with he | he
      · left; simp [he]
      · rcases ih e he with h2 | h2
        · left; simp [h2]
        · right; exact h2

theorem syncLoop_pres_lookup {env : Env} {sid : String} {todos : List TodoItem}
    {tm tm1 : List (String × String)} {k : String}
    (hk : k ∉ todos.map TodoItem.id)
    (h : (syncLoop env sid todos tm).2 = .ok tm1) :
    alookup tm1 k = alookup tm k := by
  induction todos generalizing tm with
  | nil =>
    simp [syncLoop] at h
    rw [← h]
  | cons todo rest ih =>
    simp only [List.map_cons, List.mem_cons] at hk
    push_neg at hk
    obtain ⟨hk1, hk2⟩ := hk
    cases hj : jsTruthy (alookup tm todo.id) with
    | some bid =>
      simp only [syncLoop, hj] at h
      exact ih hk2 h
    | none =>
      simp only [syncLoop, hj] at h
      cases hc : (createBeadsIssue env sid todo).2 with
      | error e => rw [hc] at h; simp at h
      | ok newID =>
        rw [hc] at h
        simp at h
        rw [ih hk2 h]
        exact alookup_aset_ne tm (Ne.symm hk1) newID

theorem deletePhase_trace_shape {seen : List String}
    {tm : List (String × String)} :
    ∀ c ∈ (deletePhase seen tm).1, isCreate c = false := by
  induction tm with
  | nil => simp [deletePhase]
  | cons e rest ih =>
    obtain ⟨tid, bid⟩ := e
    by_cases hs : tid ∈ seen
    · simpa [deletePhase, hs] using ih
    · intro c hc
      simp [deletePhase, hs] at hc
      rcases hc with h | h
      · rw [h]; rfl
      · exact ih c h

theorem syncLoop_keys {env : Env} {sid : String} {todos : List TodoItem}
    {tm tm1 : List (String × String)}
    (h : (syncLoop env sid todos tm).2 = .ok tm1) :
    ∀ e ∈ tm1, e ∈ tm ∨ e.1 ∈ todos.map TodoItem.id := by
  induction todos generalizing tm with
  | nil =>
    simp [syncLoop] at h
    rw [← h]
    intro e he
    exact Or.inl he
  | cons todo rest ih =>
    cases hj : jsTruthy (alookup tm todo.id) with
    | some bid =>
      simp only [syncLoop, hj] at h
      intro e he
      rcases ih h e he with h2 | h2
      · exact Or.inl h2
      · right; simp [h2]
    | none =>
      simp only [syncLoop, hj] at h
      cases hc : (createBeadsIssue env sid todo).2 with
      | error e => rw [hc] at h; simp at h
      | ok newID =>
        rw [hc] at h
        simp at h
        intro e he
        rcases ih h e he with h2 | h2
        · rcases mem_aset e h2 with h3 | h3
          · exact Or.inl h3
          · right; simp [h3]
        · right; simp [h2]

theorem syncLoop_pres_truthy {env : Env} {sid : String} {todos : List TodoItem}
    {tm tm1 : List (String × String)} {k : String}
    (h : (syncLoop env sid todos tm).2 = .ok tm1)
    (ht : (jsTruthy (alookup tm k)).isSome) :
    (jsTruthy (alookup tm1 k)).isSome := by
  induction todos generalizing tm with
  | nil =>
    simp [syncLoop] at h
    rw [← h]
    exact ht
  | cons todo rest ih =>
    cases hj : jsTruthy (alookup tm todo.id) with
    | some bid =>
      simp only [syncLoop, hj] at h
      exact ih h ht
    | none =>
      simp only [syncLoop, hj] at h
      cases hc : (createBeadsIssue env sid todo).2 with
      | error e => rw [hc] at h; simp at h
      | ok newID =>
        rw [hc] at h
        simp at h
        refine ih h ?_
        by_cases hk : todo.id = k
        · subst hk
          rw [hj] at ht
          simp at ht
        · rw [alookup_aset_ne tm hk newID]
          exact ht

theorem syncLoop_covers {env : Env} {sid : String} {todos : List TodoItem}
    {tm tm1 : List (String × String)}
    (hids : ∀ t p pa d i, env.createTask t p pa d = .ok i → i ≠ "")
    (h : (syncLoop env sid todos tm).2 = .ok tm1) :
    ∀ t ∈ todos, (jsTruthy (alookup tm1 t.id)).isSome := by
  induction todos generalizing tm with
  | nil => simp
  | cons todo rest ih =>
    cases hj : jsTruthy (alookup tm todo.id) with
    | some bid =>
      simp only [syncLoop, hj] at h
      intro t ht
      rcases List.mem_cons.mp ht with h2 | h2
      · subst h2
        exact syncLoop_pres_truthy h (by rw [hj]; rfl)
      · exact ih h t h2
    | none =>
      simp only [syncLoop, hj] at h
      cases hc : (createBeadsIssue env sid todo).2 with
      | error e => rw [hc] at h; simp at h
      | ok newID =>
        rw [hc] at h
        simp at h
        have hnid : newID ≠ "" :=
          hids _ _ _ _ _ (createBeadsIssue_ok hc)
        intro t ht
        rcases List.mem_cons.mp ht with h2 | h2
        · subst h2
          refine syncLoop_pres_truthy h ?_
          rw [alookup_aset_self, jsTruthy_of_ne hnid]
          rfl
        · exact ih h t h2

theorem syncLoop_stable {env : Env} {sid : String} {todos : List TodoItem}
    {tm : List (String × String)}
    (h : ∀ t ∈ todos, (jsTruthy (alookup tm t.id)).isSome) :
    (syncLoop env sid todos tm).2 = .ok tm ∧
      ∀ c ∈ (syncLoop env sid todos tm).1, isCreate c = false := by
  induction todos with
  | nil => simp [syncLoop]
  | cons todo rest ih =>
    have h1 : (jsTruthy (alookup tm todo.id)).isSome := h todo (by simp)
    obtain ⟨bid, hj⟩ := Option.isSome_iff_exists.mp h1
    have hrest := ih fun t ht => h t (List.mem_cons_of_mem _ ht)
    refine ⟨?_, ?_⟩
    · simp only [syncLoop, hj]
      exact hrest.1
    · simp only [syncLoop, hj]
      intro c hc
      rcases List.mem_append.mp hc with h2 | h2
      · exact updateBeadsIssue_noCreate bid todo c h2
      · exact hrest.2 c h2

/-! ### Session-issue manager lemmas -/

theorem createSessionIssue_ok {env : Env} {sid : String}
    {m m1 : TodoBeadsMapping} {pre : List BdCall} {eid : String}
    (h : (createSessionIssue env sid m pre).result = .ok (eid, m1)) :
    env.createEpic (epicTitle env sid) (epicDesc sid) = .ok eid ∧
      m1 = { sessions := aset m.sessions sid eid
             todos := aset m.todos sid []
             lastSync := env.now } ∧
      createSessionIssue env sid m pre =
        ⟨pre ++ [BdCall.createEpic (epicTitle env sid) (epicDesc sid)],
          [m1], .ok (eid, m1)⟩ := by
  simp only [createSessionIssue] at h ⊢
  split at h
  next e heq => simp at h
  next issueID heq =>
    simp [saveMapping] at h
    obtain ⟨h1, h2⟩ := h
    subst h1
    subst h2
    refine ⟨heq, ?_, ?_⟩ <;> simp [saveMapping]

theorem createSessionIssue_error {env : Env} {sid : String}
    {m : TodoBeadsMapping} {pre : List BdCall} {e : String}
    (h : (createSessionIssue env sid m pre).result = .error e) :
    ∃ e', env.createEpic (epicTitle env sid) (epicDesc sid) = .error e' ∧
      e = "Failed to create session issue: " ++ e' ∧
      (createSessionIssue env sid m pre).saves = [] := by
  simp only [createSessionIssue] at h ⊢
  split at h
  next e' heq =>
    simp at h
    exact ⟨e', heq, h.symm, rfl⟩
  next issueID heq => simp at h

theorem getOrCreate_ok {env : Env} {sid : String} {m m1 : TodoBeadsMapping}
    {eid : String}
    (h : (getOrCreateSessionIssue env sid m).result = .ok (eid, m1)) :
    (jsTruthy (alookup m.sessions sid) = some eid ∧ (env.«show» eid).isSome ∧
      getOrCreateSessionIssue env sid m = ⟨[BdCall.show eid], [], .ok (eid, m)⟩ ∧
      m1 = m) ∨
    (env.createEpic (epicTitle env sid) (epicDesc sid) = .ok eid ∧
      m1 = { sessions := aset m.sessions sid eid
             todos := aset m.todos sid []
             lastSync := env.now } ∧
      (getOrCreateSessionIssue env sid m).saves = [m1]) := by
  simp only [getOrCreateSessionIssue] at h ⊢
  split at h
  next epicID hj =>
    split at h
    next issue hs =>
      simp at h
      obtain ⟨h1, h2⟩ := h
      subst h1
      subst h2
      exact Or.inl ⟨hj, by rw [hs]; rfl, rfl, rfl⟩
    next hs =>
      obtain ⟨h1, h2, h3⟩ := createSessionIssue_ok h
      exact Or.inr ⟨h1, h2, by rw [h3]⟩
  next hj =>
    obtain ⟨h1, h2, h3⟩ := createSessionIssue_ok h
    exact Or.inr ⟨h1, h2, by rw [h3]⟩

theorem getOrCreate_error {env : Env} {sid : String} {m : TodoBeadsMapping}
    {e : String}
    (h : (getOrCreateSessionIssue env sid m).result = .error e) :
    ∃ e', env.createEpic (epicTitle env sid) (epicDesc sid) = .error e' ∧
      e = "Failed to create session issue: " ++ e' ∧
      (getOrCreateSessionIssue env sid m).saves = [] := by
  simp only [getOrCreateSessionIssue] at h ⊢
  split at h
  next epicID hj =>
    split at h
    next issue hs => simp at h
    next hs =>
      obtain ⟨e', h1, h2, h3⟩ := createSessionIssue_error h
      exact ⟨e', h1, h2, by rw [h3]⟩
  next hj =>
    obtain ⟨e', h1, h2, h3⟩ := createSessionIssue_error h
    exact ⟨e', h1, h2, by rw [h3]⟩

/-! ### Reconciliation-pass unfolding lemmas -/

theorem ensureTodoMap_sessions (m : TodoBeadsMapping) (sid : String) :
    (ensureTodoMap m sid).sessions = m.sessions := by
  unfold ensureTodoMap
  split <;> rfl

theorem ensureTodoMap_lookup (m : TodoBeadsMapping) (sid : String) :
    alookup (ensureTodoMap m sid).todos sid = some (startTodoMap m sid) := by
  unfold startTodoMap ensureTodoMap
  cases h : alookup m.todos sid with
  | none => simp [h]
  | some tm => simp [h]

theorem syncCore_goc_error {env : Env} {sid : String} {todos : List TodoItem}
    {m0 : TodoBeadsMapping} {e : String}
    (hg : (getOrCreateSessionIssue env sid m0).result = .error e) :
    syncCore env sid todos m0 =
      ⟨(getOrCreateSessionIssue env sid m0).trace,
        (getOrCreateSessionIssue env sid m0).saves, .error e⟩ := by
  simp only [syncCore]
  rw [hg]

theorem syncCore_loop_error {env : Env} {sid : String} {todos : List TodoItem}
    {m0 m1g : TodoBeadsMapping} {eid e : String}
    (hg : (getOrCreateSessionIssue env sid m0).result = .ok (eid, m1g))
    (hl : (syncLoop env eid todos (startTodoMap m1g sid)).2 = .error e) :
    syncCore env sid todos m0 =
      ⟨(getOrCreateSessionIssue env sid m0).trace ++
          (syncLoop env eid todos (startTodoMap m1g sid)).1,
        (getOrCreateSessionIssue env sid m0).saves, .error e⟩ := by
  simp only [syncCore]
  rw [hg]
  simp only
  rw [hl]

theorem syncCore_ok_eq {env : Env} {sid : String} {todos : List TodoItem}
    {m0 m1g : TodoBeadsMapping} {eid : String} {tm1 : List (String × String)}
    (hg : (getOrCreateSessionIssue env sid m0).result = .ok (eid, m1g))
    (hl : (syncLoop env eid todos (startTodoMap m1g sid)).2 = .ok tm1) :
    syncCore env sid todos m0 =
      ⟨(getOrCreateSessionIssue env sid m0).trace ++
          (syncLoop env eid todos (startTodoMap m1g sid)).1 ++
          (deletePhase (todos.map TodoItem.id) tm1).1 ++
          (if allCompleteCheck todos && !todos.isEmpty then
            closeSessionIssue env eid todos
          else []),
        (getOrCreateSessionIssue env sid m0).saves ++
          [{ sessions := (ensureTodoMap m1g sid).sessions
             todos := aset (ensureTodoMap m1g sid).todos sid
               (deletePhase (todos.map TodoItem.id) tm1).2
             lastSync := env.now }],
        .ok ()⟩ := by
  simp only [syncCore]
  rw [hg]
  simp only
  rw [hl]
  simp [saveMapping]

theorem getOrCreate_verified {env : Env} {sid eid : String}
    {m : TodoBeadsMapping}
    (h1 : jsTruthy (alookup m.sessions sid) = some eid)
    (h2 : (env.«show» eid).isSome) :
    getOrCreateSessionIssue env sid m =
      ⟨[BdCall.show eid], [], .ok (eid, m)⟩ := by
  obtain ⟨iss, hiss⟩ := Option.isSome_iff_exists.mp h2
  simp only [getOrCreateSessionIssue, h1, hiss]

theorem ensureTodoMap_of_some {m : TodoBeadsMapping} {sid : String}
    {tm : List (String × String)} (h : alookup m.todos sid = some tm) :
    ensureTodoMap m sid = m ∧ startTodoMap m sid = tm := by
  constructor
  · simp [ensureTodoMap, h]
  · simp [startTodoMap, ensureTodoMap, h]

theorem closeSessionIssue_noCreate (env : Env) (sid : String)
    (todos : List TodoItem) :
    ∀ c ∈ closeSessionIssue env sid todos, isCreate c = false := by
  intro c hc
  simp only [closeSessionIssue] at hc
  split at hc <;> simp at hc
  · rw [hc]; rfl
  · rcases hc with h | h <;> rw [h] <;> rfl

theorem closeSessionIssue_updateNotes_mem (env : Env) (sid : String)
    (todos : List TodoItem) :
    BdCall.updateNotes sid (sessionSummary todos) ∈
      closeSessionIssue env sid todos := by
  simp only [closeSessionIssue]
  split <;> simp

theorem closeSessionIssue_close_mem {env : Env} {sid : String}
    {todos : List TodoItem}
    (h : env.updateNotes sid (sessionSummary todos) = .ok ()) :
    BdCall.close sid (sessionSummary todos) ∈
      closeSessionIssue env sid todos := by
  simp only [closeSessionIssue]
  split
  next heq => rw [h] at heq; simp at heq
  next => simp

theorem syncCore_saves_prefixed (env : Env) (sid : String)
    (todos : List TodoItem) (m : TodoBeadsMapping) :
    ∃ rest, (syncCore env sid todos m).saves =
      (getOrCreateSessionIssue env sid m).saves ++ rest := by
  rcases hgr : (getOrCreateSessionIssue env sid m).result with e | ⟨eid, m1g⟩
  · rw [syncCore_goc_error hgr]
    exact ⟨[], by simp⟩
  · rcases hlr : (syncLoop env eid todos (startTodoMap m1g sid)).2 with e | tm1
    · rw [syncCore_loop_error hgr hlr]
      exact ⟨[], by simp⟩
    · rw [syncCore_ok_eq hgr hlr]
      exact ⟨_, rfl⟩

theorem syncCore_ok_anatomy {env : Env} {sid : String} {todos : List TodoItem}
    {m0 : TodoBeadsMapping}
    (hepic : ∀ t d i, env.createEpic t d = .ok i → i ≠ "")
    (htask : ∀ t p pa d i, env.createTask t p pa d = .ok i → i ≠ "")
    (h : (syncCore env sid todos m0).result = .ok ()) :
    ∃ eid tm2,
      jsTruthy (alookup (persistedAfter (syncCore env sid todos m0) m0).sessions
        sid) = some eid ∧
      alookup (persistedAfter (syncCore env sid todos m0) m0).todos sid =
        some tm2 ∧
      (∀ e ∈ tm2, e.1 ∈ todos.map TodoItem.id) ∧
      (∀ t ∈ todos, (jsTruthy (alookup tm2 t.id)).isSome) := by
  rcases hgr : (getOrCreateSessionIssue env sid m0).result with e | ⟨eid, m1g⟩
  · rw [syncCore_goc_error hgr] at h
    simp at h
  · rcases hlr : (syncLoop env eid todos (startTodoMap m1g sid)).2 with e | tm1
    · rw [syncCore_loop_error hgr hlr] at h
      simp at h
    · have heq := syncCore_ok_eq hgr hlr
      have hpers : persistedAfter (syncCore env sid todos m0) m0 =
          { sessions := (ensureTodoMap m1g sid).sessions
            todos := aset (ensureTodoMap m1g sid).todos sid
              (deletePhase (todos.map TodoItem.id) tm1).2
            lastSync := env.now } := by
        rw [persistedAfter, heq]
        simp
      refine ⟨eid, (deletePhase (todos.map TodoItem.id) tm1).2, ?_, ?_, ?_, ?_⟩
      · rw [hpers]
        show jsTruthy (alookup (ensureTodoMap m1g sid).sessions sid) = some eid
        rw [ensureTodoMap_sessions]
        rcases getOrCreate_ok hgr with ⟨hj, _, _, hm⟩ | ⟨hc, hm, _⟩
        · rw [hm]
          exact hj
        · rw [hm]
          show jsTruthy (alookup (aset m0.sessions sid eid) sid) = some eid
          rw [alookup_aset_self]
          exact jsTruthy_of_ne (hepic _ _ _ hc)
      · rw [hpers]
        show alookup (aset (ensureTodoMap m1g sid).todos sid _) sid = _
        rw [alookup_aset_self]
      · exact deletePhase_keys
      · intro t ht
        have hmem : t.id ∈ todos.map TodoItem.id :=
          List.mem_map_of_mem TodoItem.id ht
        rw [deletePhase_lookup, if_pos hmem]
        exact syncLoop_covers htask hlr t ht

theorem readLoop_eq_filterMap (env : Env) (tm : List (String × String)) :
    readLoop env tm =
      tm.filterMap fun e => (env.«show» e.2).map (beadsIssueToTodo e.1) := by
  induction tm with
  | nil => simp [readLoop]
  | cons e rest ih =>
    obtain ⟨tid, bid⟩ := e
    cases h : env.«show» bid with
    | none => simp [readLoop, h, ih]
    | some issue => simp [readLoop, h, ih]

/-! ### Claim C8: priority translation round trip -/

/-- C8: the priority translation round-trips for the three todo priorities
(high ↔ 1, medium ↔ 2, low ↔ 3); beads priorities 0 and 1 map to high, 2
to medium, 3 and 4 to low; any other beads priority maps to medium; and a
todo priority outside high/medium/low maps to beads priority 2. -/
theorem priority_translation_roundtrip :
    (priorityToBeads "high" = 1 ∧ priorityFromBeads 1 = "high") ∧
    (priorityToBeads "medium" = 2 ∧ priorityFromBeads 2 = "medium") ∧
    (priorityToBeads "low" = 3 ∧ priorityFromBeads 3 = "low") ∧
    (priorityFromBeads 0 = "high" ∧ priorityFromBeads 4 = "low") ∧
    (∀ n : Int, n ∉ ([0, 1, 2, 3, 4] : List Int) →
      priorityFromBeads n = "medium") ∧
    (∀ p : String, p ∉ (["high", "medium", "low"] : List String) →
      priorityToBeads p = 2) := by
  refine ⟨⟨by decide, by decide⟩, ⟨by decide, by decide⟩, ⟨by decide, by decide⟩,
    ⟨by decide, by decide⟩, ?_, ?_⟩
  · intro n hn
    simp at hn
    obtain ⟨h0, h1, h2, h3, h4⟩ := hn
    simp [priorityFromBeads, PRIORITY_FROM_BEADS, h0, h1, h2, h3, h4]
  · intro p hp
    simp at hp
    obtain ⟨h0, h1, h2⟩ := hp
    simp [priorityToBeads, PRIORITY_TO_BEADS, h0, h1, h2]

/-- Witness for C8: concrete out-of-range inputs discharged through the
theorem. -/
theorem priority_translation_roundtrip_witness :
    priorityFromBeads 7 = "medium" ∧ priorityToBeads "urgent" = 2 :=
  ⟨priority_translation_roundtrip.2.2.2.2.1 7 (by decide),
    priority_translation_roundtrip.2.2.2.2.2 "urgent" (by decide)⟩

/-! ### Claim C3: status translation round trip -/

/-- C3: pending and in_progress survive translation to a beads status and
back; completed and cancelled translate to closed, and with the engine's
own close reason ("Completed" resp. "Cancelled in OpenCode") recorded in
the issue's notes, the inverse translation through the notes heuristic
reproduces the original status. -/
theorem status_translation_roundtrip :
    (STATUS_TO_BEADS TodoStatus.pending = BeadsStatus.«open» ∧
      ∀ tid (issue : BeadsIssue), issue.status = BeadsStatus.«open» →
        (beadsIssueToTodo tid issue).status = TodoStatus.pending) ∧
    (STATUS_TO_BEADS TodoStatus.in_progress = BeadsStatus.in_progress ∧
      ∀ tid (issue : BeadsIssue), issue.status = BeadsStatus.in_progress →
        (beadsIssueToTodo tid issue).status = TodoStatus.in_progress) ∧
    (STATUS_TO_BEADS TodoStatus.completed = BeadsStatus.closed ∧
      closeReason TodoStatus.completed = "Completed" ∧
      ∀ tid (issue : BeadsIssue), issue.status = BeadsStatus.closed →
        issue.notes = some (closeReason TodoStatus.completed) →
        (beadsIssueToTodo tid issue).status = TodoStatus.completed) ∧
    (STATUS_TO_BEADS TodoStatus.cancelled = BeadsStatus.closed ∧
      closeReason TodoStatus.cancelled = "Cancelled in OpenCode" ∧
      ∀ tid (issue : BeadsIssue), issue.status = BeadsStatus.closed →
        issue.notes = some (closeReason TodoStatus.cancelled) →
        (beadsIssueToTodo tid issue).status = TodoStatus.cancelled) := by
  refine ⟨⟨rfl, ?_⟩, ⟨rfl, ?_⟩, ⟨rfl, rfl, ?_⟩, ⟨rfl, rfl, ?_⟩⟩
  · intro tid issue h
    simp [beadsIssueToTodo, h]
  · intro tid issue h
    simp [beadsIssueToTodo, h]
  · intro tid issue h hn
    simp [beadsIssueToTodo, h, hn, closeReason]
    decide
  · intro tid issue h hn
    simp [beadsIssueToTodo, h, hn, closeReason]
    decide

/-- Witness for C3: a concrete closed issue with each engine-written
reason, discharged through the theorem. -/
theorem status_translation_roundtrip_witness :
    (beadsIssueToTodo "t1"
      ⟨"bd-1", "task one", none, BeadsStatus.closed, 2, "task",
        some "Completed"⟩).status = TodoStatus.completed ∧
    (beadsIssueToTodo "t2"
      ⟨"bd-2", "task two", none, BeadsStatus.closed, 2, "task",
        some "Cancelled in OpenCode"⟩).status = TodoStatus.cancelled ∧
    (beadsIssueToTodo "t3"
      ⟨"bd-3", "task three", none, BeadsStatus.«open», 2, "task",
        none⟩).status = TodoStatus.pending ∧
    (beadsIssueToTodo "t4"
      ⟨"bd-4", "task four", none, BeadsStatus.in_progress, 2, "task",
        none⟩).status = TodoStatus.in_progress :=
  ⟨status_translation_roundtrip.2.2.1.2.2 "t1" _ rfl rfl,
    status_translation_roundtrip.2.2.2.2.2 "t2" _ rfl rfl,
    status_translation_roundtrip.1.2 "t3" _ rfl,
    status_translation_roundtrip.2.1.2 "t4" _ rfl⟩

/-! ### Claim C5: corrupt or missing mapping store loads as empty -/

/-- C5: whenever reading the mapping file fails or its content does not
parse, `loadMapping` yields the empty mapping rather than an error, so
both reconcile and recover behave exactly as with an empty mapping (and
recover returns the empty list). -/
theorem corrupt_mapping_loads_empty (env : Env)
    (h : env.readFile = .error () ∨
      ∃ s, env.readFile = .ok s ∧ env.parseJson s = .error ()) :
    loadMapping env = emptyMapping ∧
    (∀ sid todos, syncTodosToBeads env sid todos =
      syncCore env sid todos emptyMapping) ∧
    (∀ sid, readTodosFromBeads env sid =
      readTodosCore env sid emptyMapping) ∧
    (∀ sid, readTodosFromBeads env sid = []) := by
  have hload : loadMapping env = emptyMapping := by
    rcases h with h | ⟨s, h1, h2⟩
    · simp [loadMapping, h]
    · simp [loadMapping, h1, h2]
  refine ⟨hload, ?_, ?_, ?_⟩
  · intro sid todos
    rw [syncTodosToBeads, hload]
  · intro sid
    rw [readTodosFromBeads, hload]
  · intro sid
    rw [readTodosFromBeads, hload]
    simp [readTodosCore, emptyMapping, alookup, jsTruthy]

/-- Witness for C5: an environment whose mapping file is missing,
discharged through the theorem. -/
theorem corrupt_mapping_loads_empty_witness :
    loadMapping
      { readFile := .error ()
        parseJson := fun _ => .error ()
        «show» := fun _ => none
        createEpic := fun _ _ => .ok "epic-1"
        createTask := fun _ _ _ _ => .ok "task-1"
        update := fun _ _ => .ok ()
        updateNotes := fun _ _ => .ok ()
        close := fun _ _ => .ok ()
        now := 1000
        today := "2026-10-11" } = emptyMapping ∧
    readTodosFromBeads
      { readFile := .error ()
        parseJson := fun _ => .error ()
        «show» := fun _ => none
        createEpic := fun _ _ => .ok "epic-1"
        createTask := fun _ _ _ _ => .ok "task-1"
        update := fun _ _ => .ok ()
        updateNotes := fun _ _ => .ok ()
        close := fun _ _ => .ok ()
        now := 1000
        today := "2026-10-11" } "ses-1" = [] :=
  ⟨(corrupt_mapping_loads_empty _ (Or.inl rfl)).1,
    (corrupt_mapping_loads_empty _ (Or.inl rfl)).2.2.2 "ses-1"⟩

/-! ### Claim C6: session-epic resolution -/

/-- C6: with a recorded epic whose lookup succeeds,
`getOrCreateSessionIssue` returns the recorded id, issues no save, and
leaves the mapping untouched; with no recorded epic or a failing lookup,
it creates a new epic, records it in `sessions`, resets the session's
todo map to empty, saves the mapping immediately (the first snapshot of
any surrounding reconciliation pass), and returns the new id; a failing
creation call surfaces as an error to the caller. -/
theorem ensure_session_issue_spec (env : Env) (sid : String)
    (m : TodoBeadsMapping) :
    (∀ eid, jsTruthy (alookup m.sessions sid) = some eid →
      (env.«show» eid).isSome →
      getOrCreateSessionIssue env sid m =
        ⟨[BdCall.show eid], [], .ok (eid, m)⟩) ∧
    (∀ nid, env.createEpic (epicTitle env sid) (epicDesc sid) = .ok nid →
      (jsTruthy (alookup m.sessions sid) = none ∨
        ∃ eid, jsTruthy (alookup m.sessions sid) = some eid ∧
          env.«show» eid = none) →
      ∃ m', (getOrCreateSessionIssue env sid m).result = .ok (nid, m') ∧
        alookup m'.sessions sid = some nid ∧
        alookup m'.todos sid = some [] ∧
        (getOrCreateSessionIssue env sid m).saves = [m'] ∧
        ∀ todos, (syncCore env sid todos m).saves.head? = some m') ∧
    (∀ e, env.createEpic (epicTitle env sid) (epicDesc sid) = .error e →
      (jsTruthy (alookup m.sessions sid) = none ∨
        ∃ eid, jsTruthy (alookup m.sessions sid) = some eid ∧
          env.«show» eid = none) →
      (getOrCreateSessionIssue env sid m).result =
        .error ("Failed to create session issue: " ++ e)) := by
  have hcreate : ∀ pre nid,
      env.createEpic (epicTitle env sid) (epicDesc sid) = .ok nid →
      createSessionIssue env sid m pre =
        ⟨pre ++ [BdCall.createEpic (epicTitle env sid) (epicDesc sid)],
          [{ sessions := aset m.sessions sid nid
             todos := aset m.todos sid []
             lastSync := env.now }],
          .ok (nid,
            { sessions := aset m.sessions sid nid
              todos := aset m.todos sid []
              lastSync := env.now })⟩ := by
    intro pre nid hc
    simp only [createSessionIssue, hc, saveMapping]
  have hcreateErr : ∀ pre e,
      env.createEpic (epicTitle env sid) (epicDesc sid) = .error e →
      createSessionIssue env sid m pre =
        ⟨pre ++ [BdCall.createEpic (epicTitle env sid) (epicDesc sid)], [],
          .error ("Failed to create session issue: " ++ e)⟩ := by
    intro pre e hc
    simp only [createSessionIssue, hc]
  have hgoc : ∀ pre, (jsTruthy (alookup m.sessions sid) = none ∧ pre = []) ∨
      (∃ eid, jsTruthy (alookup m.sessions sid) = some eid ∧
        env.«show» eid = none ∧ pre = [BdCall.show eid]) →
      getOrCreateSessionIssue env sid m = createSessionIssue env sid m pre := by
    intro pre habs
    rcases habs with ⟨h1, h2⟩ | ⟨eid, h1, h2, h3⟩
    · subst h2
      simp only [getOrCreateSessionIssue, h1]
    · subst h3
      simp only [getOrCreateSessionIssue, h1, h2]
  refine ⟨?_, ?_, ?_⟩
  · intro eid h1 h2
    exact getOrCreate_verified h1 h2
  · intro nid hc habs
    have hpre : ∃ pre, getOrCreateSessionIssue env sid m =
        createSessionIssue env sid m pre := by
      rcases habs with h | ⟨eid, h1, h2⟩
      · exact ⟨[], hgoc [] (Or.inl ⟨h, rfl⟩)⟩
      · exact ⟨[BdCall.show eid], hgoc _ (Or.inr ⟨eid, h1, h2, rfl⟩)⟩
    obtain ⟨pre, hpre⟩ := hpre
    rw [hpre, hcreate pre nid hc]
    refine ⟨_, rfl, ?_, ?_, rfl, ?_⟩
    · exact alookup_aset_self ..
    · exact alookup_aset_self ..
    · intro todos
      obtain ⟨rest, hrest⟩ := syncCore_saves_prefixed env sid todos m
      rw [hrest, hpre, hcreate pre nid hc]
      rfl
  · intro e hc habs
    have hpre : ∃ pre, getOrCreateSessionIssue env sid m =
        createSessionIssue env sid m pre := by
      rcases habs with h | ⟨eid, h1, h2⟩
      · exact ⟨[], hgoc [] (Or.inl ⟨h, rfl⟩)⟩
      · exact ⟨[BdCall.show eid], hgoc _ (Or.inr ⟨eid, h1, h2, rfl⟩)⟩
    obtain ⟨pre, hpre⟩ := hpre
    rw [hpre, hcreateErr pre e hc]

/-- Witness for C6: the verified-epic path on a concrete mapping, and the
creation path from an empty mapping, discharged through the theorem. -/
theorem ensure_session_issue_spec_witness :
    getOrCreateSessionIssue envA "ses-1" mapOne =
      ⟨[BdCall.show "epic-1"], [], .ok ("epic-1", mapOne)⟩ ∧
    (∃ m', (getOrCreateSessionIssue envA "ses-1" emptyMapping).result =
        .ok ("epic-1", m') ∧
      alookup m'.sessions "ses-1" = some "epic-1" ∧
      alookup m'.todos "ses-1" = some [] ∧
      (getOrCreateSessionIssue envA "ses-1" emptyMapping).saves = [m'] ∧
      ∀ todos, (syncCore envA "ses-1" todos emptyMapping).saves.head? =
        some m') :=
  ⟨(ensure_session_issue_spec envA "ses-1" mapOne).1 "epic-1" (by decide)
      (by decide),
    (ensure_session_issue_spec envA "ses-1" emptyMapping).2.1 "epic-1" rfl
      (Or.inl (by decide))⟩

/-! ### Claim C10: stale epic resets the session's todo map -/

/-- C10: when the recorded epic's lookup fails, the creation path resets
`mapping.todos[sessionID]` to the empty map even if it held entries; no
close call is issued for the discarded pairs, and a subsequent recover on
the resulting mapping returns the empty list. -/
theorem stale_epic_resets_todo_map (env env2 : Env) (sid eid nid : String)
    (m : TodoBeadsMapping)
    (hsess : jsTruthy (alookup m.sessions sid) = some eid)
    (hshow : env.«show» eid = none)
    (hcreate : env.createEpic (epicTitle env sid) (epicDesc sid) = .ok nid) :
    ∃ m', (getOrCreateSessionIssue env sid m).result = .ok (nid, m') ∧
      alookup m'.todos sid = some [] ∧
      (∀ c ∈ (getOrCreateSessionIssue env sid m).trace,
        ∀ i r, c ≠ BdCall.close i r) ∧
      readTodosCore env2 sid m' = [] := by
  simp only [getOrCreateSessionIssue, hsess, hshow, createSessionIssue,
    hcreate, saveMapping]
  refine ⟨_, rfl, ?_, ?_, ?_⟩
  · exact alookup_aset_self ..
  · intro c hc i r
    simp at hc
    rcases hc with h | h <;> rw [h] <;> simp
  · by_cases hn : nid = ""
    · simp [readTodosCore, jsTruthy, hn]
    · simp [readTodosCore, jsTruthy, hn, readLoop]

/-- Witness for C10: a mapping whose recorded epic no longer exists, with
previously recorded todo pairs, discharged through the theorem. -/
theorem stale_epic_resets_todo_map_witness :
    ∃ m', (getOrCreateSessionIssue envNoShow "ses-1" mapOne).result =
        .ok ("epic-1", m') ∧
      alookup m'.todos "ses-1" = some [] ∧
      (∀ c ∈ (getOrCreateSessionIssue envNoShow "ses-1" mapOne).trace,
        ∀ i r, c ≠ BdCall.close i r) ∧
      readTodosCore envA "ses-1" m' = [] :=
  stale_epic_resets_todo_map envNoShow envA "ses-1" "epic-1" "epic-1" mapOne
    (by decide) rfl rfl

/-! ### Claim C4: recovery reads mapped issues back -/

/-- C4: recover returns the empty list when no epic is recorded for the
session; otherwise it walks the recorded pairs in order, skips every pair
whose fetch yields nothing, and turns each fetched issue into a todo
keeping the original todo id, taking the issue title as content and
inverse-translating priority and status (with the notes heuristic for
closed issues). -/
theorem recover_reads_mapped_issues (env : Env) (sid : String)
    (m : TodoBeadsMapping) :
    (jsTruthy (alookup m.sessions sid) = none → readTodosCore env sid m = []) ∧
    (∀ eid, jsTruthy (alookup m.sessions sid) = some eid →
      readTodosCore env sid m =
        ((alookup m.todos sid).getD []).filterMap
          fun e => (env.«show» e.2).map (beadsIssueToTodo e.1)) ∧
    (∀ tid issue, (beadsIssueToTodo tid issue).id = tid ∧
      (beadsIssueToTodo tid issue).content = issue.title ∧
      (beadsIssueToTodo tid issue).priority = priorityFromBeads issue.priority) ∧
    (∀ tid (issue : BeadsIssue),
      (issue.status = BeadsStatus.«open» →
        (beadsIssueToTodo tid issue).status = TodoStatus.pending) ∧
      (issue.status = BeadsStatus.in_progress →
        (beadsIssueToTodo tid issue).status = TodoStatus.in_progress) ∧
      (issue.status = BeadsStatus.closed → ∀ nts, issue.notes = some nts →
        (beadsIssueToTodo tid issue).status =
          (if includesSub nts "Cancelled" then TodoStatus.cancelled
           else TodoStatus.completed)) ∧
      (issue.status = BeadsStatus.closed → issue.notes = none →
        (beadsIssueToTodo tid issue).status = TodoStatus.completed)) := by
  refine ⟨?_, ?_, ?_, ?_⟩
  · intro h
    simp [readTodosCore, h]
  · intro eid h
    simp [readTodosCore, h, readLoop_eq_filterMap]
  · intro tid issue
    exact ⟨rfl, rfl, rfl⟩
  · intro tid issue
    refine ⟨?_, ?_, ?_, ?_⟩
    · intro h
      simp [beadsIssueToTodo, h]
    · intro h
      simp [beadsIssueToTodo, h]
    · intro h nts hn
      simp [beadsIssueToTodo, h, hn]
    · intro h hn
      simp [beadsIssueToTodo, h, hn]

/-- Witness for C4: recovery over a concrete mapping with one live and one
deleted issue, discharged through the theorem. -/
theorem recover_reads_mapped_issues_witness :
    readTodosCore envA "ses-1" mapOne =
      [⟨"t1", "task one", TodoStatus.in_progress, "high"⟩] ∧
    readTodosCore envA "absent-session" mapOne = [] :=
  ⟨((recover_reads_mapped_issues envA "ses-1" mapOne).2.1 "epic-1"
      (by decide)).trans (by decide),
    (recover_reads_mapped_issues envA "absent-session" mapOne).1 (by decide)⟩

/-! ### Claim C1: per-todo creation failure and the mapping save -/

/-- Counterexample to C1 as stated: with two fresh todos whose second
creation fails after the first succeeded, the pass returns the creation
error, yet the only snapshot ever persisted is the epic-creation save,
whose todo map for the session is empty — the in-memory progress for the
first todo (and the final lastSync refresh) is never persisted, because
`syncTodosToBeads` has no final save on the error path. -/
theorem sync_create_failure_drops_progress_cex :
    (syncTodosToBeads envFailT2 "ses-1" [tPend1, tPend2]).result =
      .error "Failed to create beads issue for todo t2: boom" ∧
    (syncTodosToBeads envFailT2 "ses-1" [tPend1, tPend2]).saves =
      [{ sessions := [("ses-1", "epic-1")], todos := [("ses-1", [])],
         lastSync := 1000 }] ∧
    ∀ mm ∈ (syncTodosToBeads envFailT2 "ses-1" [tPend1, tPend2]).saves,
      alookup ((alookup mm.todos "ses-1").getD []) "t1" = none :=
  ⟨rfl, by decide, by decide⟩

/-- C1 amended: when a reconciliation pass ends in an error (an epic or
per-todo creation failure), the final mapping save is skipped — the
snapshots persisted are exactly those of the session-epic resolution
step, each of which records an empty todo map for the session, so no
per-todo progress of the failing pass is ever persisted. -/
theorem sync_create_failure_aborts_without_save (env : Env) (sid : String)
    (todos : List TodoItem) (m0 : TodoBeadsMapping) (e : String)
    (h : (syncCore env sid todos m0).result = .error e) :
    (syncCore env sid todos m0).saves =
      (getOrCreateSessionIssue env sid m0).saves ∧
    ∀ mm ∈ (syncCore env sid todos m0).saves,
      alookup mm.todos sid = some [] := by
  have hsaves : ∀ mm ∈ (getOrCreateSessionIssue env sid m0).saves,
      alookup mm.todos sid = some [] := by
    intro mm hmm
    rcases hgr : (getOrCreateSessionIssue env sid m0).result with e' | ⟨eid, m1g⟩
    · obtain ⟨e'', _, _, hnil⟩ := getOrCreate_error hgr
      rw [hnil] at hmm
      simp at hmm
    · rcases getOrCreate_ok hgr with ⟨_, _, hfull, _⟩ | ⟨_, hm1, hone⟩
      · rw [hfull] at hmm
        simp at hmm
      · rw [hone] at hmm
        simp at hmm
        rw [hmm, hm1]
        exact alookup_aset_self ..
  rcases hgr : (getOrCreateSessionIssue env sid m0).result with e' | ⟨eid, m1g⟩
  · rw [syncCore_goc_error hgr]
    exact ⟨rfl, hsaves⟩
  · rcases hlr : (syncLoop env eid todos (startTodoMap m1g sid)).2 with e' | tm1
    · rw [syncCore_loop_error hgr hlr]
      exact ⟨rfl, hsaves⟩
    · rw [syncCore_ok_eq hgr hlr] at h
      simp at h

/-- Witness for the amended C1: the concrete failing pass, discharged
through the theorem. -/
theorem sync_create_failure_aborts_without_save_witness :
    (syncCore envFailT2 "ses-1" [tPend1, tPend2] (loadMapping envFailT2)).saves =
      (getOrCreateSessionIssue envFailT2 "ses-1"
        (loadMapping envFailT2)).saves ∧
    ∀ mm ∈ (syncCore envFailT2 "ses-1" [tPend1, tPend2]
        (loadMapping envFailT2)).saves,
      alookup mm.todos "ses-1" = some [] :=
  sync_create_failure_aborts_without_save envFailT2 "ses-1" [tPend1, tPend2]
    (loadMapping envFailT2)
    "Failed to create beads issue for todo t2: boom" rfl

/-! ### Claim C7: deleted todos are closed and dropped from the mapping -/

/-- C7: on the normal path (epic lookup succeeds, the create/update loop
completes), every recorded pair whose todo id is absent from the input
list gets a close call with reason "Todo removed from OpenCode", the pass
still succeeds whatever that close returns, and the pair is gone from the
persisted mapping; in particular, after reconciling with the empty list,
recover on the persisted mapping returns the empty sequence. -/
theorem deleted_todo_closed_and_removed (env env2 : Env)
    (sid eid tid bid : String) (m : TodoBeadsMapping)
    (todos : List TodoItem) (tm1 : List (String × String))
    (hsess : jsTruthy (alookup m.sessions sid) = some eid)
    (hshow : (env.«show» eid).isSome)
    (hpair : alookup (startTodoMap m sid) tid = some bid)
    (habsent : tid ∉ todos.map TodoItem.id)
    (hloop : (syncLoop env eid todos (startTodoMap m sid)).2 = .ok tm1) :
    (BdCall.close bid "Todo removed from OpenCode" ∈
        (syncCore env sid todos m).trace ∧
      (syncCore env sid todos m).result = .ok () ∧
      ∃ tm2, alookup (persistedAfter (syncCore env sid todos m) m).todos sid =
          some tm2 ∧
        alookup tm2 tid = none) ∧
    ((syncCore env sid [] m).result = .ok () ∧
      BdCall.close bid "Todo removed from OpenCode" ∈
        (syncCore env sid [] m).trace ∧
      readTodosCore env2 sid (persistedAfter (syncCore env sid [] m) m) = []) := by
  have hg := getOrCreate_verified hsess hshow
  have hgr : (getOrCreateSessionIssue env sid m).result = .ok (eid, m) := by
    rw [hg]
  have hses' : jsTruthy (alookup (ensureTodoMap m sid).sessions sid) =
      some eid := by
    rw [ensureTodoMap_sessions]
    exact hsess
  constructor
  · have heq := syncCore_ok_eq hgr hloop
    have hl1 : alookup tm1 tid = some bid :=
      (syncLoop_pres_lookup habsent hloop).trans hpair
    have hmem : (tid, bid) ∈ tm1 := alookup_mem hl1
    refine ⟨?_, ?_, ?_⟩
    · rw [heq]
      show _ ∈ _ ++ _ ++ _ ++ _
      have := deletePhase_close_mem hmem habsent
      simp only [List.mem_append]
      exact Or.inl (Or.inr this)
    · rw [heq]
    · refine ⟨(deletePhase (todos.map TodoItem.id) tm1).2, ?_, ?_⟩
      · rw [persistedAfter, heq]
        simp [hg, List.getLastD_concat]
      · rw [deletePhase_lookup]
        rw [if_neg habsent]
  · have hloop0 : (syncLoop env eid ([] : List TodoItem)
        (startTodoMap m sid)).2 = .ok (startTodoMap m sid) := by
      simp [syncLoop]
    have heq0 := syncCore_ok_eq hgr hloop0
    have hmem0 : (tid, bid) ∈ startTodoMap m sid := alookup_mem hpair
    have hD0 : (deletePhase ([] : List String) (startTodoMap m sid)).2 = [] := by
      rcases hd : (deletePhase ([] : List String) (startTodoMap m sid)).2
        with _ | ⟨e, rest⟩
      · rfl
      · have := deletePhase_keys e (hd ▸ List.mem_cons_self e rest)
        simp at this
    refine ⟨?_, ?_, ?_⟩
    · rw [heq0]
    · rw [heq0]
      show _ ∈ _ ++ _ ++ _ ++ _
      have hcl : BdCall.close bid "Todo removed from OpenCode" ∈
          (deletePhase (([] : List TodoItem).map TodoItem.id)
            (startTodoMap m sid)).1 :=
        deletePhase_close_mem hmem0 (by simp)
      simp only [List.mem_append]
      exact Or.inl (Or.inr hcl)
    · rw [persistedAfter, heq0]
      simp [hg, List.getLastD_concat, readTodosCore, hses', hD0, readLoop]

/-- Witness for C7: the concrete mapping with recorded pairs reconciled
against the empty list, discharged through the theorem. -/
theorem deleted_todo_closed_and_removed_witness :
    (syncCore envA "ses-1" [] mapOne).result = .ok () ∧
    BdCall.close "bd-1" "Todo removed from OpenCode" ∈
      (syncCore envA "ses-1" [] mapOne).trace ∧
    readTodosCore envA "ses-1"
      (persistedAfter (syncCore envA "ses-1" [] mapOne) mapOne) = [] :=
  (deleted_todo_closed_and_removed envA envA "ses-1" "epic-1" "t1" "bd-1"
    mapOne [] (startTodoMap mapOne "ses-1") (by decide) (by decide)
    (by decide) (by decide) rfl).2

/-! ### Claim C9: all-terminal list closes the session epic -/

/-- C9: when the input list is non-empty and every item is completed or
cancelled, the pass updates the epic's notes with the count summary and
— when that notes update succeeds — closes the epic with the same
summary as reason; on the concrete list [A(completed), B(cancelled)] with
no prior mapping, the pass creates two child issues, closes each
according to its status, then closes the epic with a reason containing
"1 completed, 1 cancelled". -/
theorem all_complete_closes_epic :
    (∀ (env : Env) (sid : String) (todos : List TodoItem)
        (m m1g : TodoBeadsMapping) (eid : String)
        (tm1 : List (String × String)),
      (getOrCreateSessionIssue env sid m).result = .ok (eid, m1g) →
      (syncLoop env eid todos (startTodoMap m1g sid)).2 = .ok tm1 →
      allCompleteCheck todos = true → todos ≠ [] →
      BdCall.updateNotes eid (sessionSummary todos) ∈
        (syncCore env sid todos m).trace ∧
      (env.updateNotes eid (sessionSummary todos) = .ok () →
        BdCall.close eid (sessionSummary todos) ∈
          (syncCore env sid todos m).trace)) ∧
    sessionSummary [tDoneA, tCancB] =
      "Session complete: 1 completed, 1 cancelled" ∧
    (syncTodosToBeads envPerTitle "ses-1" [tDoneA, tCancB]).trace =
      [BdCall.createEpic "OpenCode Session ses-1 (2026-10-11)"
          "Tracks todos for OpenCode session ses-1",
        BdCall.createTask "A" 2 "epic-1" "OpenCode todo ID: a1",
        BdCall.close "bd-A" "Completed",
        BdCall.createTask "B" 3 "epic-1" "OpenCode todo ID: b1",
        BdCall.close "bd-B" "Cancelled in OpenCode",
        BdCall.updateNotes "epic-1" "Session complete: 1 completed, 1 cancelled",
        BdCall.close "epic-1" "Session complete: 1 completed, 1 cancelled"] ∧
    (syncTodosToBeads envPerTitle "ses-1" [tDoneA, tCancB]).result = .ok () ∧
    (syncTodosToBeads envPerTitle "ses-1" [tDoneA, tCancB]).saves =
      [⟨[("ses-1", "epic-1")], [("ses-1", [])], 1000⟩,
        ⟨[("ses-1", "epic-1")], [("ses-1", [("a1", "bd-A"), ("b1", "bd-B")])],
          1000⟩] := by
  refine ⟨?_, by decide, by decide, rfl, by decide⟩
  intro env sid todos m m1g eid tm1 hg hl hall hne
  have hcond : (allCompleteCheck todos && !todos.isEmpty) = true := by
    rw [hall]
    cases todos with
    | nil => exact absurd rfl hne
    | cons a l => simp
  have heq := syncCore_ok_eq hg hl
  rw [heq, hcond]
  constructor
  · show _ ∈ _ ++ _ ++ _ ++ _
    simp only [List.mem_append]
    exact Or.inr (by simpa using closeSessionIssue_updateNotes_mem env eid todos)
  · intro hok
    show _ ∈ _ ++ _ ++ _ ++ _
    simp only [List.mem_append]
    exact Or.inr (by simpa using closeSessionIssue_close_mem hok)

/-- Witness for C9's general part: the concrete all-terminal list,
discharged through the theorem. -/
theorem all_complete_closes_epic_witness :
    BdCall.updateNotes "epic-1" (sessionSummary [tDoneA, tCancB]) ∈
      (syncCore envPerTitle "ses-1" [tDoneA, tCancB] emptyMapping).trace ∧
    BdCall.close "epic-1" (sessionSummary [tDoneA, tCancB]) ∈
      (syncCore envPerTitle "ses-1" [tDoneA, tCancB] emptyMapping).trace :=
  ⟨(all_complete_closes_epic.1 envPerTitle "ses-1" [tDoneA, tCancB]
      emptyMapping ⟨[("ses-1", "epic-1")], [("ses-1", [])], 1000⟩ "epic-1"
      [("a1", "bd-A"), ("b1", "bd-B")] rfl rfl (by decide) (by decide)).1,
    (all_complete_closes_epic.1 envPerTitle "ses-1" [tDoneA, tCancB]
      emptyMapping ⟨[("ses-1", "epic-1")], [("ses-1", [])], 1000⟩ "epic-1"
      [("a1", "bd-A"), ("b1", "bd-B")] rfl rfl (by decide) (by decide)).2 rfl⟩

/-! ### Claim C2: reconciliation is idempotent -/

/-- C2: after a successful pass (against a tracker whose create calls
return real, non-empty ids), running the same todo list again on the
persisted mapping — with the epic lookup succeeding — issues no create
call, succeeds, and persists a mapping equal to the first pass's result
except for `lastSync`. -/
theorem reconcile_idempotent (env1 env2 : Env) (sid : String)
    (todos : List TodoItem) (m0 m1 : TodoBeadsMapping) (eid : String)
    (hepic : ∀ t d i, env1.createEpic t d = .ok i → i ≠ "")
    (htask : ∀ t p pa d i, env1.createTask t p pa d = .ok i → i ≠ "")
    (h1 : (syncCore env1 sid todos m0).result = .ok ())
    (hm1 : m1 = persistedAfter (syncCore env1 sid todos m0) m0)
    (heid : jsTruthy (alookup m1.sessions sid) = some eid)
    (hshow2 : (env2.«show» eid).isSome) :
    (∀ c ∈ (syncCore env2 sid todos m1).trace, isCreate c = false) ∧
    (syncCore env2 sid todos m1).result = .ok () ∧
    (syncCore env2 sid todos m1).saves = [{ m1 with lastSync := env2.now }] ∧
    persistedAfter (syncCore env2 sid todos m1) m1 =
      { m1 with lastSync := env2.now } := by
  obtain ⟨eid', tm2, hj', htodos, hkeys, hcover⟩ :=
    syncCore_ok_anatomy hepic htask h1
  rw [← hm1] at hj' htodos
  have hg2 := getOrCreate_verified heid hshow2
  have hgr2 : (getOrCreateSessionIssue env2 sid m1).result = .ok (eid, m1) := by
    rw [hg2]
  obtain ⟨hens, hstart⟩ := ensureTodoMap_of_some htodos
  have hstable := @syncLoop_stable env2 eid todos tm2 hcover
  have hl2 : (syncLoop env2 eid todos (startTodoMap m1 sid)).2 = .ok tm2 := by
    rw [hstart]
    exact hstable.1
  have heq2 := syncCore_ok_eq hgr2 hl2
  have hkept : deletePhase (todos.map TodoItem.id) tm2 = ([], tm2) :=
    deletePhase_all_kept hkeys
  have hM : ({ sessions := (ensureTodoMap m1 sid).sessions
               todos := aset (ensureTodoMap m1 sid).todos sid
                 (deletePhase (todos.map TodoItem.id) tm2).2
               lastSync := env2.now } : TodoBeadsMapping) =
      { m1 with lastSync := env2.now } := by
    rw [hens, hkept]
    show ({ sessions := m1.sessions, todos := aset m1.todos sid tm2,
             lastSync := env2.now } : TodoBeadsMapping) = _
    rw [aset_of_lookup_eq htodos]
  have hsaves : (syncCore env2 sid todos m1).saves =
      [{ m1 with lastSync := env2.now }] := by
    rw [heq2]
    simp only [hg2, hM]
    rfl
  refine ⟨?_, ?_, hsaves, ?_⟩
  · intro c hc
    rw [heq2] at hc
    simp only [hg2, hkept, hstart] at hc
    simp only [List.mem_append] at hc
    rcases hc with ((hc | hc) | hc) | hc
    · simp at hc
      rw [hc]
      rfl
    · exact hstable.2 c hc
    · simp at hc
    · split at hc
      · exact closeSessionIssue_noCreate env2 eid todos c hc
      · simp at hc
  · rw [heq2]
  · rw [persistedAfter, hsaves]
    rfl

/-- Witness for C2: a concrete first pass from an empty mapping followed
by a second pass on its persisted mapping, discharged through the
theorem. -/
theorem reconcile_idempotent_witness :
    (∀ c ∈ (syncCore envA "ses-1" [tPend1]
        ⟨[("ses-1", "epic-1")], [("ses-1", [("t1", "bd-1")])],
          1000⟩).trace, isCreate c = false) ∧
    (syncCore envA "ses-1" [tPend1]
      ⟨[("ses-1", "epic-1")], [("ses-1", [("t1", "bd-1")])], 1000⟩).result =
      .ok () ∧
    (syncCore envA "ses-1" [tPend1]
      ⟨[("ses-1", "epic-1")], [("ses-1", [("t1", "bd-1")])], 1000⟩).saves =
      [⟨[("ses-1", "epic-1")], [("ses-1", [("t1", "bd-1")])], 1000⟩] := by
  have h := reconcile_idempotent envA envA "ses-1" [tPend1] emptyMapping
    ⟨[("ses-1", "epic-1")], [("ses-1", [("t1", "bd-1")])], 1000⟩ "epic-1"
    (fun t d i h => by rw [← Except.ok.inj h]; decide)
    (fun t p pa d i h => by rw [← Except.ok.inj h]; decide)
    rfl (by decide) (by decide) (by decide)
  exact ⟨h.1, h.2.1, h.2.2.1⟩

end Beads
